import Mathlib

/-
Shallow embedding of the Authzed facade layer
(`extended_example/models.py`, `extended_example/authzed_base.py`,
`extended_example/authzed_grpc.py`): value types, wire-message types, and
the pure request-building / response-merging logic of `AuthzedGrpc`.
Remote calls are modelled by passing the remote response (or a
request-to-response function) explicitly.
-/

set_option autoImplicit false

namespace Authzed

/-- A caller-supplied identifier: Python `Union[str, int]`. -/
inductive Ident where
  | str (s : String)
  | int (n : Int)
deriving DecidableEq, Repr

/-- Python `str(x)` applied to a `str | int` value. -/
def Ident.toStr : Ident → String
  | .str s => s
  | .int n => toString n

/-- `models.Access` (StrEnum allow/forbid/undefined). -/
inductive Access where
  | allow
  | forbid
  | undefined
deriving DecidableEq, Repr

/-- `Access.is_allowed`: `self == self.allow`. -/
def Access.is_allowed (a : Access) : Bool :=
  a == Access.allow

/-- `models.RelationUpdateType` (StrEnum create/grant/revoke). -/
inductive RelationUpdateType where
  | create
  | grant
  | revoke
deriving DecidableEq, Repr

/-- `models.CheckRequest` after pydantic validation: the `subject_id` and
`resource_id` field validators have already coerced both ids to `str`. -/
structure CheckRequest where
  subject_type : String
  subject_id : String
  resource_type : String
  resource_id : String
  permission : String
deriving DecidableEq, Repr

/-- The `CheckRequest` constructor: the pydantic `mode="before"` validators
apply `str(...)` to the caller-supplied `subject_id` and `resource_id`. -/
def CheckRequest.make (subject_type : String) (subject_id : Ident)
    (resource_type : String) (resource_id : Ident) (permission : String) :
    CheckRequest :=
  { subject_type := subject_type
    subject_id := subject_id.toStr
    resource_type := resource_type
    resource_id := resource_id.toStr
    permission := permission }

/-- `models.ResourcesRequest` (no id validator: `subject_id` keeps its
caller-supplied `str | int` form). -/
structure ResourcesRequest where
  subject_type : String
  subject_id : Ident
  resource_type : String
  permission : String
deriving DecidableEq, Repr

/-- `models.RelationUpdateRequest`; `update_type` defaults to `None`. -/
structure RelationUpdateRequest where
  subject_type : String
  subject_id : Ident
  resource_type : String
  resource_id : Ident
  relation : String
  subject_relation : String := ""
  update_type : Option RelationUpdateType := none
deriving DecidableEq, Repr

/-- `models.RelationUpdateGrantRequest`: same fields, but the
`update_type` field is declared non-Optional with default `grant`, so a
null value is impossible and the default pins it to `grant`. -/
def RelationUpdateGrantRequest.make (subject_type : String) (subject_id : Ident)
    (resource_type : String) (resource_id : Ident) (relation : String)
    (subject_relation : String := "")
    (update_type : RelationUpdateType := RelationUpdateType.grant) :
    RelationUpdateRequest :=
  { subject_type := subject_type
    subject_id := subject_id
    resource_type := resource_type
    resource_id := resource_id
    relation := relation
    subject_relation := subject_relation
    update_type := some update_type }

/-- `models.RelationUpdateRevokeRequest`: non-Optional `update_type`
defaulting to `revoke`. -/
def RelationUpdateRevokeRequest.make (subject_type : String) (subject_id : Ident)
    (resource_type : String) (resource_id : Ident) (relation : String)
    (subject_relation : String := "")
    (update_type : RelationUpdateType := RelationUpdateType.revoke) :
    RelationUpdateRequest :=
  { subject_type := subject_type
    subject_id := subject_id
    resource_type := resource_type
    resource_id := resource_id
    relation := relation
    subject_relation := subject_relation
    update_type := some update_type }

/- Wire-message types of the authzed v1 protocol, as consumed here. -/

/-- `ObjectReference(object_type, object_id)`. -/
structure ObjectReference where
  object_type : String
  object_id : String
deriving DecidableEq, Repr

/-- `SubjectReference(object, optional_relation)`. -/
structure SubjectReference where
  object : ObjectReference
  optional_relation : String := ""
deriving DecidableEq, Repr

/-- `Consistency`: the one-of between `fully_consistent=True` and
`minimize_latency=True` as built by this client. -/
inductive Consistency where
  | fullyConsistent
  | minimizeLatency
deriving DecidableEq, Repr

/-- `CheckPermissionResponse.permissionship` values. -/
inductive Permissionship where
  | unspecified
  | noPermission
  | hasPermission
  | conditionalPermission
deriving DecidableEq, Repr

/-- `CheckPermissionRequest` as built by `AuthzedGrpc.check`. -/
structure CheckPermissionRequest where
  resource : ObjectReference
  permission : String
  subject : SubjectReference
  consistency : Option Consistency
deriving DecidableEq, Repr

/-- `CheckPermissionResponse` (only `permissionship` is read). -/
structure CheckPermissionResponse where
  permissionship : Permissionship
deriving DecidableEq, Repr

/-- `BulkCheckPermissionRequestItem`. -/
structure BulkCheckPermissionRequestItem where
  resource : ObjectReference
  permission : String
  subject : SubjectReference
deriving DecidableEq, Repr

/-- `BulkCheckPermissionRequest`. -/
structure BulkCheckPermissionRequest where
  consistency : Option Consistency
  items : List BulkCheckPermissionRequestItem
deriving DecidableEq, Repr

/-- The `item` part of a bulk-check response pair (only `permissionship`
is read by `check_many`). -/
structure BulkCheckPermissionPairItem where
  permissionship : Permissionship
deriving DecidableEq, Repr

/-- One `pair` of a `BulkCheckPermissionResponse`: the echoed request item
plus the evaluated item. -/
structure BulkCheckPermissionPair where
  request : BulkCheckPermissionRequestItem
  item : BulkCheckPermissionPairItem
deriving DecidableEq, Repr

/-- `BulkCheckPermissionResponse` (only `pairs` is read). -/
structure BulkCheckPermissionResponse where
  pairs : List BulkCheckPermissionPair
deriving DecidableEq, Repr

/- A model of a Python `dict` as an association list with
first-occurrence key order: assignment replaces the value of an existing
key in place, otherwise appends the new key at the end. -/

/-- Python `d[k] = v` on an association list. -/
def dictSet {α β : Type} [DecidableEq α] : List (α × β) → α → β → List (α × β)
  | [], k, v => [(k, v)]
  | p :: rest, k, v =>
      if p.1 = k then (k, v) :: rest else p :: dictSet rest k v

/-- Python `d.get(k)` on an association list. -/
def dictGet {α β : Type} [DecidableEq α] : List (α × β) → α → Option β
  | [], _ => none
  | p :: rest, k => if p.1 = k then some p.2 else dictGet rest k

/-- The key list of an association-list dict. -/
def dictKeys {α β : Type} (d : List (α × β)) : List α :=
  d.map Prod.fst

/- `AuthzedGrpc.check` / `AuthzedGrpc.check_many` request building. -/

/-- The consistency chosen by `check` and `check_many` (lines 89-94 and
145-150): `full_consistent` is tested first, then `minimize_latency`,
else no consistency is attached. -/
def consistencyOf (full_consistent minimize_latency : Bool) : Option Consistency :=
  if full_consistent then some Consistency.fullyConsistent
  else if minimize_latency then some Consistency.minimizeLatency
  else none

/-- The `CheckPermissionRequest` sent by `AuthzedGrpc.check`. -/
def check_request (request : CheckRequest) (full_consistent minimize_latency : Bool) :
    CheckPermissionRequest :=
  { resource := { object_type := request.resource_type, object_id := request.resource_id }
    permission := request.permission
    subject := { object := { object_type := request.subject_type, object_id := request.subject_id } }
    consistency := consistencyOf full_consistent minimize_latency }

/-- `AuthzedGrpc.check`, given the remote response: allow on
`PERMISSIONSHIP_HAS_PERMISSION`, forbid on anything else. -/
def check (request : CheckRequest) (full_consistent minimize_latency : Bool)
    (response : CheckPermissionResponse) : Access :=
  if response.permissionship = Permissionship.hasPermission then Access.allow
  else Access.forbid

/-- `AuthzedGrpc.is_allowed`: forwards its arguments verbatim to `check`
and collapses the result with `Access.is_allowed`. -/
def is_allowed (request : CheckRequest) (full_consistent minimize_latency : Bool)
    (response : CheckPermissionResponse) : Bool :=
  (check request full_consistent minimize_latency response).is_allowed

/-- The flags `BaseAuthzed.is_allowed` forwards to `check`: when
`minimize_latency` is set only it is passed on (so `full_consistent`
falls back to its `False` default); otherwise only `full_consistent`. -/
def base_is_allowed_check_flags (full_consistent minimize_latency : Bool) : Bool × Bool :=
  if minimize_latency then (false, true) else (full_consistent, false)

/-- The `BulkCheckPermissionRequestItem` built for one `CheckRequest`
(lines 126-142). -/
def check_many_item (request : CheckRequest) : BulkCheckPermissionRequestItem :=
  { resource := { object_type := request.resource_type, object_id := request.resource_id }
    permission := request.permission
    subject := { object := { object_type := request.subject_type, object_id := request.subject_id } } }

/-- The `CheckRequest` reconstructed from an echoed bulk-response pair
(lines 167-175). -/
def pairCheckRequest (p : BulkCheckPermissionPair) : CheckRequest :=
  CheckRequest.make p.request.subject.object.object_type (Ident.str p.request.subject.object.object_id)
    p.request.resource.object_type (Ident.str p.request.resource.object_id)
    p.request.permission

/-- `{check: Access.forbid for check in requests}` (lines 159-161). -/
def initForbid (requests : List CheckRequest) : List (CheckRequest × Access) :=
  requests.foldl (fun d r => dictSet d r Access.forbid) []

/-- Whether a bulk-response pair reports permission for exactly the
tuple reconstructing to `k`. -/
def pair_allows (k : CheckRequest) (p : BulkCheckPermissionPair) : Bool :=
  (p.item.permissionship == Permissionship.hasPermission) && (pairCheckRequest p == k)

/-- The loop over `response.pairs` (lines 162-176): every pair reporting
`PERMISSIONSHIP_HAS_PERMISSION` overwrites its reconstructed key with
allow. -/
def applyPairs (d : List (CheckRequest × Access)) (pairs : List BulkCheckPermissionPair) :
    List (CheckRequest × Access) :=
  pairs.foldl
    (fun d p =>
      if p.item.permissionship = Permissionship.hasPermission then
        dictSet d (pairCheckRequest p) Access.allow
      else d)
    d

/-- The observable outcome of a `check_many` call: the bulk request sent
to the remote service (none when no call is issued) and the returned
mapping. -/
structure CheckManyOutcome where
  remote_request : Option BulkCheckPermissionRequest
  result : List (CheckRequest × Access)
deriving DecidableEq, Repr

/-- `AuthzedGrpc.check_many`, given the remote bulk response: early
return on empty input, otherwise build the bulk request, pre-populate
every requested key with forbid, and apply the response pairs. -/
def check_many (requests : List CheckRequest) (full_consistent minimize_latency : Bool)
    (response : BulkCheckPermissionResponse) : CheckManyOutcome :=
  if requests = [] then { remote_request := none, result := [] }
  else
    { remote_request := some
        { consistency := consistencyOf full_consistent minimize_latency
          items := requests.map check_many_item }
      result := applyPairs (initForbid requests) response.pairs }

/- `AuthzedGrpc.update` (lines 195-227). -/

/-- `RelationshipUpdate.Operation` values used here. -/
inductive RelationshipOperation where
  | touch
  | delete
deriving DecidableEq, Repr

/-- The Python exceptions raised by `update`. -/
inductive UpdateError where
  | valueError (msg : String)
  | notImplementedError (msg : String)
  | runtimeError (msg : String)
deriving DecidableEq, Repr

/-- Core `Relationship` message. -/
structure Relationship where
  resource : ObjectReference
  relation : String
  subject : SubjectReference
deriving DecidableEq, Repr

/-- Core `RelationshipUpdate` message. -/
structure RelationshipUpdate where
  operation : RelationshipOperation
  relationship : Relationship
deriving DecidableEq, Repr

/-- `WriteRelationshipsRequest`. -/
structure WriteRelationshipsRequest where
  updates : List RelationshipUpdate
deriving DecidableEq, Repr

/-- `WriteRelationshipsResponse`: `written_at_token = none` models a
response on which `response.written_at.token` raises `AttributeError`. -/
structure WriteRelationshipsResponse where
  written_at_token : Option String
deriving DecidableEq, Repr

/-- `AuthzedGrpc._relation_update_type`: grant maps to TOUCH, revoke to
DELETE, anything else raises `NotImplementedError`. -/
def relation_update_type : RelationUpdateType → Except UpdateError RelationshipOperation
  | RelationUpdateType.grant => Except.ok RelationshipOperation.touch
  | RelationUpdateType.revoke => Except.ok RelationshipOperation.delete
  | RelationUpdateType.create =>
      Except.error (UpdateError.notImplementedError "Relation update type not defined.")

/-- One iteration of the `update` loop (lines 200-220): reject a null
`update_type` with `ValueError`, otherwise build the
`RelationshipUpdate` (which may itself raise inside
`_relation_update_type`). -/
def build_relationship_update (u : RelationUpdateRequest) :
    Except UpdateError RelationshipUpdate :=
  match u.update_type with
  | none => Except.error (UpdateError.valueError "update_type cannot be None")
  | some t =>
      (relation_update_type t).map fun op =>
        { operation := op
          relationship :=
            { resource := { object_type := u.resource_type, object_id := u.resource_id.toStr }
              relation := u.relation
              subject :=
                { object := { object_type := u.subject_type, object_id := u.subject_id.toStr }
                  optional_relation := u.subject_relation } } }

/-- The `update` loop over all requested updates: stops at the first
raising element, exactly like the Python `for` loop. -/
def build_write_request : List RelationUpdateRequest → Except UpdateError (List RelationshipUpdate)
  | [] => Except.ok []
  | u :: us =>
      match build_relationship_update u with
      | Except.error e => Except.error e
      | Except.ok ru =>
          match build_write_request us with
          | Except.error e => Except.error e
          | Except.ok rus => Except.ok (ru :: rus)

deriving instance DecidableEq for Except

/-- The observable outcome of an `update` call: the write request sent
to the remote service (none when the loop raised before the call) and
the final result (`ok ()` is Python `None`). -/
structure UpdateOutcome where
  remote_write : Option WriteRelationshipsRequest
  result : Except UpdateError Unit
deriving DecidableEq, Repr

/-- `AuthzedGrpc.update`, with the remote service modelled as a
request-to-response function: build all relationship updates (raising
before any remote call on a bad element), send the write request, then
raise `RuntimeError` when the response lacks a write token. -/
def update (updates : List RelationUpdateRequest)
    (respond : WriteRelationshipsRequest → WriteRelationshipsResponse) : UpdateOutcome :=
  match build_write_request updates with
  | Except.error e => { remote_write := none, result := Except.error e }
  | Except.ok relationship_updates =>
      let request : WriteRelationshipsRequest := { updates := relationship_updates }
      match (respond request).written_at_token with
      | some _ => { remote_write := some request, result := Except.ok () }
      | none =>
          { remote_write := some request
            result := Except.error (UpdateError.runtimeError "Invalid authzed response.") }

/- `AuthzedGrpc.resources_many` (lines 317-376). -/

/-- The state of one fanned-out sub-lookup task after the bounded
`asyncio.wait`: finished with a result, finished with an exception, or
still pending (not done within the wait window). -/
inductive TaskOutcome where
  | done (result : List String)
  | failed (error : String)
  | pending
deriving DecidableEq, Repr

/-- The per-task merge of the result loop (lines 365-374): an unfinished
task is cancelled and contributes `[]`, a task that raised contributes
`[]` (its error is logged), a finished task contributes its result. -/
def taskResult : TaskOutcome → List String
  | TaskOutcome.done r => r
  | TaskOutcome.failed _ => []
  | TaskOutcome.pending => []

/-- `AuthzedGrpc.resources_many`, with the concurrency abstracted into a
per-request `TaskOutcome`: the task dict comprehension followed by the
result-merging loop. The merge is total — no sub-task outcome makes it
raise. -/
def resources_many (requests : List ResourcesRequest)
    (outcome : ResourcesRequest → TaskOutcome) : List (ResourcesRequest × List String) :=
  let tasks : List (ResourcesRequest × TaskOutcome) :=
    requests.foldl (fun d r => dictSet d r (outcome r)) []
  tasks.foldl (fun result p => dictSet result p.1 (taskResult p.2)) []

/- `AuthzedGrpc.subjects_generator` / `_parse_subjects` (lines 378-405,
501-511). -/

/-- A node of the permission-expansion tree: its leaf part lists direct
subjects (empty for an intermediate node) and its intermediate part
lists children (empty for a leaf), matching the protobuf message where
both one-of branches are always readable and the unset one is empty. -/
inductive PermissionTree where
  | node (leafSubjects : List SubjectReference) (children : List PermissionTree)

/-- `AuthzedGrpc._parse_subjects`: yield the ids of this node's leaf
subjects whose `object_type` matches the filter, then recurse into the
children left to right. -/
def parse_subjects (subject_type : String) : PermissionTree → List String
  | PermissionTree.node leafSubjects children =>
      (leafSubjects.filter fun s => s.object.object_type == subject_type).map
        (fun s => s.object.object_id)
      ++ (children.attach.map fun c => parse_subjects subject_type c.1).flatten
decreasing_by
  simp_wf
  have h := List.sizeOf_lt_of_mem c.2
  omega

/-- The depth-first, left-to-right enumeration of all leaf subjects of
an expansion tree (the traversal order `_parse_subjects` follows). -/
def all_leaf_subjects : PermissionTree → List SubjectReference
  | PermissionTree.node leafSubjects children =>
      leafSubjects ++ (children.attach.map fun c => all_leaf_subjects c.1).flatten
decreasing_by
  simp_wf
  have h := List.sizeOf_lt_of_mem c.2
  omega

/- Lemmas about the association-list dict model. -/

section DictLemmas

variable {α β : Type} [DecidableEq α]

theorem dictGet_dictSet_self (d : List (α × β)) (k : α) (v : β) :
    dictGet (dictSet d k v) k = some v := by
  induction d with
  | nil => simp [dictSet, dictGet]
  | cons p rest ih =>
      by_cases h : p.1 = k
      · simp [dictSet, h, dictGet]
      · simp [dictSet, h, dictGet, ih]

theorem dictGet_dictSet_ne (d : List (α × β)) (k k' : α) (v : β) (h : k' ≠ k) :
    dictGet (dictSet d k v) k' = dictGet d k' := by
  have hne : ¬ k = k' := fun hk => h hk.symm
  induction d with
  | nil => simp [dictSet, dictGet, hne]
  | cons p rest ih =>
      by_cases hp : p.1 = k
      · subst hp
        simp [dictSet, dictGet, hne]
      · simp [dictSet, hp, dictGet, ih]

theorem dictSet_of_not_mem (d : List (α × β)) (k : α) (v : β) (h : k ∉ dictKeys d) :
    dictSet d k v = d ++ [(k, v)] := by
  induction d with
  | nil => simp [dictSet]
  | cons p rest ih =>
      simp only [dictKeys, List.map_cons, List.mem_cons] at h
      push_neg at h
      have hp : ¬ p.1 = k := fun hk => h.1 hk.symm
      rw [show dictSet (p :: rest) k v = p :: dictSet rest k v from by simp [dictSet, hp]]
      rw [ih (by simpa [dictKeys] using h.2)]
      simp

theorem dictKeys_dictSet_of_mem (d : List (α × β)) (k : α) (v : β) (h : k ∈ dictKeys d) :
    dictKeys (dictSet d k v) = dictKeys d := by
  induction d with
  | nil => simp [dictKeys] at h
  | cons p rest ih =>
      by_cases hp : p.1 = k
      · rw [show dictSet (p :: rest) k v = (k, v) :: rest from by simp [dictSet, hp]]
        simp [dictKeys, hp]
      · simp only [dictKeys, List.map_cons, List.mem_cons] at h
        rcases h with h | h
        · exact absurd h.symm hp
        · have h2 := ih (by simpa [dictKeys] using h)
          rw [show dictSet (p :: rest) k v = p :: dictSet rest k v from by simp [dictSet, hp]]
          simp only [dictKeys, List.map_cons] at h2 ⊢
          rw [h2]

theorem dictGet_isSome_iff (d : List (α × β)) (k : α) :
    (dictGet d k).isSome = true ↔ k ∈ dictKeys d := by
  induction d with
  | nil => simp [dictGet, dictKeys]
  | cons p rest ih =>
      by_cases hp : p.1 = k
      · simp [dictGet, hp, dictKeys]
      · simp only [dictGet, if_neg hp, dictKeys, List.map_cons, List.mem_cons]
        rw [ih]
        constructor
        · exact fun h => Or.inr h
        · rintro (h | h)
          · exact absurd h.symm hp
          · exact h

theorem mem_dictKeys_dictSet (d : List (α × β)) (k k' : α) (v : β) :
    k' ∈ dictKeys (dictSet d k v) ↔ k' ∈ dictKeys d ∨ k' = k := by
  by_cases h : k' = k
  · subst h
    rw [← dictGet_isSome_iff, dictGet_dictSet_self]
    simp
  · rw [← dictGet_isSome_iff, dictGet_dictSet_ne d k k' v h, dictGet_isSome_iff]
    simp [h]

theorem nodup_dictKeys_dictSet (d : List (α × β)) (k : α) (v : β)
    (h : (dictKeys d).Nodup) : (dictKeys (dictSet d k v)).Nodup := by
  by_cases hk : k ∈ dictKeys d
  · rw [dictKeys_dictSet_of_mem d k v hk]
    exact h
  · rw [dictSet_of_not_mem d k v hk]
    rw [show dictKeys (d ++ [(k, v)]) = dictKeys d ++ [k] from by simp [dictKeys]]
    rw [List.nodup_append]
    refine ⟨h, List.nodup_singleton _, ?_⟩
    intro a ha
    simp only [List.mem_singleton]
    exact fun hak => hk (hak ▸ ha)

theorem mem_of_mem_dictSet (d : List (α × β)) (k : α) (v : β) (p : α × β)
    (h : p ∈ dictSet d k v) : p ∈ d ∨ p = (k, v) := by
  induction d with
  | nil => simpa [dictSet] using h
  | cons q rest ih =>
      by_cases hq : q.1 = k
      · simp only [dictSet, if_pos hq, List.mem_cons] at h
        rcases h with h | h
        · exact Or.inr h
        · exact Or.inl (List.mem_cons_of_mem _ h)
      · simp only [dictSet, if_neg hq, List.mem_cons] at h
        rcases h with h | h
        · exact Or.inl (h ▸ List.mem_cons_self _ _)
        · rcases ih h with h' | h'
          · exact Or.inl (List.mem_cons_of_mem _ h')
          · exact Or.inr h'

theorem dictGet_foldl_set (f : α → β) (rs : List α) (d : List (α × β)) (k : α) :
    dictGet (rs.foldl (fun d r => dictSet d r (f r)) d) k =
      if k ∈ rs then some (f k) else dictGet d k := by
  induction rs generalizing d with
  | nil => simp
  | cons r rs ih =>
      simp only [List.foldl_cons, ih, List.mem_cons]
      by_cases hrs : k ∈ rs
      · simp [hrs]
      · by_cases hr : k = r
        · subst hr
          simp [hrs, dictGet_dictSet_self]
        · simp [hrs, hr, dictGet_dictSet_ne d r k (f r) hr]

theorem mem_dictKeys_foldl_set (f : α → β) (rs : List α) (d : List (α × β)) (k : α) :
    k ∈ dictKeys (rs.foldl (fun d r => dictSet d r (f r)) d) ↔ k ∈ dictKeys d ∨ k ∈ rs := by
  induction rs generalizing d with
  | nil => simp
  | cons r rs ih =>
      simp only [List.foldl_cons, ih, mem_dictKeys_dictSet, List.mem_cons]
      tauto

theorem nodup_dictKeys_foldl_set (f : α → β) (rs : List α) (d : List (α × β))
    (h : (dictKeys d).Nodup) :
    (dictKeys (rs.foldl (fun d r => dictSet d r (f r)) d)).Nodup := by
  induction rs generalizing d with
  | nil => exact h
  | cons r rs ih => exact ih _ (nodup_dictKeys_dictSet d r (f r) h)

theorem mem_foldl_set (f : α → β) (rs : List α) (d : List (α × β)) (p : α × β)
    (h : p ∈ rs.foldl (fun d r => dictSet d r (f r)) d) :
    p ∈ d ∨ ∃ r, p = (r, f r) := by
  induction rs generalizing d with
  | nil => exact Or.inl h
  | cons r rs ih =>
      rcases ih _ h with h' | h'
      · rcases mem_of_mem_dictSet d r (f r) p h' with h'' | h''
        · exact Or.inl h''
        · exact Or.inr ⟨r, h''⟩
      · exact Or.inr h'

theorem foldl_set_eq_append (f : α → β) (rs : List α) (d : List (α × β))
    (hnd : rs.Nodup) (hdisj : ∀ r ∈ rs, r ∉ dictKeys d) :
    rs.foldl (fun d r => dictSet d r (f r)) d = d ++ rs.map (fun r => (r, f r)) := by
  induction rs generalizing d with
  | nil => simp
  | cons r rs ih =>
      simp only [List.foldl_cons]
      rw [dictSet_of_not_mem d r (f r) (hdisj r (List.mem_cons_self r rs))]
      rw [ih (d ++ [(r, f r)]) hnd.of_cons]
      · simp
      · intro r' hr'
        simp only [dictKeys, List.map_append, List.map_cons, List.map_nil, List.mem_append,
          List.mem_cons]
        push_neg
        refine ⟨by simpa [dictKeys] using hdisj r' (List.mem_cons_of_mem _ hr'), ?_, by simp⟩
        exact fun h => (List.nodup_cons.1 hnd).1 (h ▸ hr')

end DictLemmas

/- Lemmas about the internals of `check_many`. -/

theorem applyPairs_cons (d : List (CheckRequest × Access)) (p : BulkCheckPermissionPair)
    (ps : List BulkCheckPermissionPair) :
    applyPairs d (p :: ps) =
      applyPairs
        (if p.item.permissionship = Permissionship.hasPermission then
          dictSet d (pairCheckRequest p) Access.allow
        else d) ps := rfl

theorem dictGet_applyPairs (d : List (CheckRequest × Access))
    (ps : List BulkCheckPermissionPair) (k : CheckRequest) :
    dictGet (applyPairs d ps) k =
      if ps.any (pair_allows k) then some Access.allow else dictGet d k := by
  induction ps generalizing d with
  | nil => simp [applyPairs]
  | cons p ps ih =>
      rw [applyPairs_cons, ih, List.any_cons]
      by_cases hps : ps.any (pair_allows k) = true
      · simp [hps]
      · simp only [Bool.not_eq_true] at hps
        simp only [hps, Bool.or_false]
        by_cases hperm : p.item.permissionship = Permissionship.hasPermission
        · by_cases htarget : pairCheckRequest p = k
          · have hpa : pair_allows k p = true := by
              simp [pair_allows, hperm, htarget]
            rw [if_pos hperm, htarget, dictGet_dictSet_self]
            simp [hpa]
          · have hpa : pair_allows k p = false := by
              simp [pair_allows, htarget]
            rw [if_pos hperm,
              dictGet_dictSet_ne d (pairCheckRequest p) k Access.allow
                (fun h => htarget h.symm)]
            simp [hpa]
        · have hpa : pair_allows k p = false := by
            simp [pair_allows, hperm]
          rw [if_neg hperm]
          simp [hpa]

theorem mem_dictKeys_applyPairs (d : List (CheckRequest × Access))
    (ps : List BulkCheckPermissionPair) (k : CheckRequest) (h : k ∈ dictKeys d) :
    k ∈ dictKeys (applyPairs d ps) := by
  induction ps generalizing d with
  | nil => exact h
  | cons p ps ih =>
      rw [applyPairs_cons]
      apply ih
      by_cases hperm : p.item.permissionship = Permissionship.hasPermission
      · rw [if_pos hperm]
        exact (mem_dictKeys_dictSet d (pairCheckRequest p) k Access.allow).2 (Or.inl h)
      · rwa [if_neg hperm]

theorem nodup_dictKeys_applyPairs (d : List (CheckRequest × Access))
    (ps : List BulkCheckPermissionPair) (h : (dictKeys d).Nodup) :
    (dictKeys (applyPairs d ps)).Nodup := by
  induction ps generalizing d with
  | nil => exact h
  | cons p ps ih =>
      rw [applyPairs_cons]
      apply ih
      by_cases hperm : p.item.permissionship = Permissionship.hasPermission
      · rw [if_pos hperm]
        exact nodup_dictKeys_dictSet _ _ _ h
      · rwa [if_neg hperm]

theorem mem_applyPairs (d : List (CheckRequest × Access))
    (ps : List BulkCheckPermissionPair) (p : CheckRequest × Access)
    (h : p ∈ applyPairs d ps) : p ∈ d ∨ p.2 = Access.allow := by
  induction ps generalizing d with
  | nil => exact Or.inl h
  | cons q ps ih =>
      rw [applyPairs_cons] at h
      rcases ih _ h with h' | h'
      · by_cases hperm : q.item.permissionship = Permissionship.hasPermission
        · rw [if_pos hperm] at h'
          rcases mem_of_mem_dictSet _ _ _ _ h' with h'' | h''
          · exact Or.inl h''
          · exact Or.inr (by rw [h''])
        · rw [if_neg hperm] at h'
          exact Or.inl h'
      · exact Or.inr h'

theorem dictGet_initForbid (rs : List CheckRequest) (k : CheckRequest) :
    dictGet (initForbid rs) k = if k ∈ rs then some Access.forbid else none :=
  dictGet_foldl_set (fun _ => Access.forbid) rs [] k

theorem mem_dictKeys_initForbid (rs : List CheckRequest) (k : CheckRequest) :
    k ∈ dictKeys (initForbid rs) ↔ k ∈ rs := by
  rw [show initForbid rs = rs.foldl (fun d r => dictSet d r ((fun _ => Access.forbid) r)) []
      from rfl]
  rw [mem_dictKeys_foldl_set]
  simp [dictKeys]

theorem nodup_dictKeys_initForbid (rs : List CheckRequest) :
    (dictKeys (initForbid rs)).Nodup :=
  nodup_dictKeys_foldl_set (fun _ => Access.forbid) rs [] (by simp [dictKeys])

theorem snd_eq_forbid_of_mem_initForbid (rs : List CheckRequest) (p : CheckRequest × Access)
    (h : p ∈ initForbid rs) : p.2 = Access.forbid := by
  rcases mem_foldl_set (fun _ => Access.forbid) rs [] p h with h' | h'
  · simp at h'
  · rcases h' with ⟨r, hr⟩
    rw [hr]

/- Claim theorems. -/

/-- C9: for the empty input list, `check_many` returns an empty mapping and
issues no remote call, leaving the remote service untouched. -/
theorem check_many_empty_no_remote_call (full_consistent minimize_latency : Bool)
    (response : BulkCheckPermissionResponse) :
    check_many [] full_consistent minimize_latency response =
      { remote_request := none, result := [] } := rfl

/-- C7: a `CheckRequest` built with integer identifiers equals the one built
with the corresponding string identifiers — both ids are coerced to their
string representation at construction — so the two produce identical
single-check and bulk-check wire messages. -/
theorem checkRequest_identifier_normalization (subject_type resource_type permission : String)
    (n m : Int) (full_consistent minimize_latency : Bool) :
    (CheckRequest.make subject_type (Ident.int n) resource_type (Ident.int m) permission =
      CheckRequest.make subject_type (Ident.str (toString n)) resource_type
        (Ident.str (toString m)) permission) ∧
    (check_request
        (CheckRequest.make subject_type (Ident.int n) resource_type (Ident.int m) permission)
        full_consistent minimize_latency =
      check_request
        (CheckRequest.make subject_type (Ident.str (toString n)) resource_type
          (Ident.str (toString m)) permission)
        full_consistent minimize_latency) ∧
    (check_many_item
        (CheckRequest.make subject_type (Ident.int n) resource_type (Ident.int m) permission) =
      check_many_item
        (CheckRequest.make subject_type (Ident.str (toString n)) resource_type
          (Ident.str (toString m)) permission)) :=
  ⟨rfl, rfl, rfl⟩

/-- C8: every value built via the grant (resp. revoke) convenience
constructor has a non-null `update_type`; built with the constructor's
default it is pinned to grant (resp. revoke). -/
theorem grant_revoke_update_type_not_null (subject_type : String) (subject_id : Ident)
    (resource_type : String) (resource_id : Ident) (relation subject_relation : String)
    (update_type : RelationUpdateType) :
    ((RelationUpdateGrantRequest.make subject_type subject_id resource_type resource_id
        relation subject_relation).update_type = some RelationUpdateType.grant) ∧
    ((RelationUpdateRevokeRequest.make subject_type subject_id resource_type resource_id
        relation subject_relation).update_type = some RelationUpdateType.revoke) ∧
    ((RelationUpdateGrantRequest.make subject_type subject_id resource_type resource_id
        relation subject_relation update_type).update_type ≠ none) ∧
    ((RelationUpdateRevokeRequest.make subject_type subject_id resource_type resource_id
        relation subject_relation update_type).update_type ≠ none) := by
  refine ⟨rfl, rfl, ?_, ?_⟩ <;>
    simp [RelationUpdateGrantRequest.make, RelationUpdateRevokeRequest.make]

/-- C10: `check` returns only allow or forbid (never undefined), every
value in a `check_many` result mapping is allow or forbid, and
`is_allowed` is true exactly when `check` returns allow. -/
theorem check_access_never_undefined (request : CheckRequest)
    (full_consistent minimize_latency : Bool) (response : CheckPermissionResponse)
    (requests : List CheckRequest) (bulk_response : BulkCheckPermissionResponse) :
    (check request full_consistent minimize_latency response = Access.allow ∨
      check request full_consistent minimize_latency response = Access.forbid) ∧
    (∀ p ∈ (check_many requests full_consistent minimize_latency bulk_response).result,
      p.2 = Access.allow ∨ p.2 = Access.forbid) ∧
    (is_allowed request full_consistent minimize_latency response = true ↔
      check request full_consistent minimize_latency response = Access.allow) := by
  refine ⟨?_, ?_, ?_⟩
  · unfold check
    by_cases h : response.permissionship = Permissionship.hasPermission <;> simp [h]
  · intro p hp
    unfold check_many at hp
    by_cases hreq : requests = []
    · simp [hreq] at hp
    · simp only [if_neg hreq] at hp
      rcases mem_applyPairs _ _ _ hp with h | h
      · exact Or.inr (snd_eq_forbid_of_mem_initForbid _ _ h)
      · exact Or.inl h
  · simp [is_allowed, Access.is_allowed]

/-- C2 counterexample: with both consistency flags set, the request built
by `check` carries full consistency, not minimize latency as claimed. -/
theorem consistency_both_flags_counterexample :
    (check_request (CheckRequest.make "user" (Ident.str "1") "document" (Ident.str "1") "view")
        true true).consistency ≠ some Consistency.minimizeLatency := by
  decide

/-- C2 amended: when both flags are set, `check` and `check_many` attach
the full-consistency setting (full consistency takes precedence); when
neither flag is set no consistency setting is attached; the base-class
`is_allowed` wrapper forwards only `minimize_latency` when that flag is
set, so calls routed through it carry minimize latency. -/
theorem consistency_precedence (request : CheckRequest) (rest : List CheckRequest)
    (response : BulkCheckPermissionResponse) :
    ((check_request request true true).consistency = some Consistency.fullyConsistent) ∧
    ((check_request request false false).consistency = none) ∧
    ((check_many (request :: rest) true true response).remote_request =
      some { consistency := some Consistency.fullyConsistent
             items := (request :: rest).map check_many_item }) ∧
    ((check_many (request :: rest) false false response).remote_request =
      some { consistency := none, items := (request :: rest).map check_many_item }) ∧
    (base_is_allowed_check_flags true true = (false, true)) ∧
    ((check_request request (base_is_allowed_check_flags true true).1
        (base_is_allowed_check_flags true true).2).consistency =
      some Consistency.minimizeLatency) := by
  refine ⟨rfl, rfl, ?_, ?_, rfl, rfl⟩ <;>
    simp [check_many, check_request, consistencyOf]

/-- C5: when the relationship updates build successfully, `update` raises
`RuntimeError` — distinct from the transport-level and validation errors —
exactly when the write response carries no write token, and returns Python
`None` (here `ok ()`) when the token is present. -/
theorem update_write_token_contract (updates : List RelationUpdateRequest)
    (respond : WriteRelationshipsRequest → WriteRelationshipsResponse)
    (relationship_updates : List RelationshipUpdate)
    (hbuild : build_write_request updates = Except.ok relationship_updates) :
    ((respond { updates := relationship_updates }).written_at_token = none →
      update updates respond =
        { remote_write := some { updates := relationship_updates }
          result := Except.error (UpdateError.runtimeError "Invalid authzed response.") }) ∧
    (∀ token, (respond { updates := relationship_updates }).written_at_token = some token →
      update updates respond =
        { remote_write := some { updates := relationship_updates }
          result := Except.ok () }) := by
  constructor
  · intro hnone
    unfold update
    rw [hbuild]
    simp [hnone]
  · intro token htok
    unfold update
    rw [hbuild]
    simp [htok]

/-- C5 witness: a grant update against a remote that echoes a tokenless
write response makes `update` raise the runtime error. -/
theorem update_write_token_contract_witness :
    update
        [{ subject_type := "user", subject_id := Ident.str "1", resource_type := "document"
           resource_id := Ident.str "7", relation := "owner", subject_relation := ""
           update_type := some RelationUpdateType.grant }]
        (fun _ => { written_at_token := none }) =
      { remote_write := some
          { updates :=
              [{ operation := RelationshipOperation.touch
                 relationship :=
                   { resource := { object_type := "document", object_id := "7" }
                     relation := "owner"
                     subject :=
                       { object := { object_type := "user", object_id := "1" }
                         optional_relation := "" } } }] }
        result := Except.error (UpdateError.runtimeError "Invalid authzed response.") } :=
  (update_write_token_contract
    [{ subject_type := "user", subject_id := Ident.str "1", resource_type := "document"
       resource_id := Ident.str "7", relation := "owner", subject_relation := ""
       update_type := some RelationUpdateType.grant }]
    (fun _ => { written_at_token := none })
    [{ operation := RelationshipOperation.touch
       relationship :=
         { resource := { object_type := "document", object_id := "7" }
           relation := "owner"
           subject :=
             { object := { object_type := "user", object_id := "1" }
               optional_relation := "" } } }]
    rfl).1 rfl

/-- C4 helper: a list of relation updates containing a null `update_type`
always fails to build. -/
theorem build_write_request_error_of_none (updates : List RelationUpdateRequest)
    (h : ∃ u ∈ updates, u.update_type = none) :
    ∃ e, build_write_request updates = Except.error e := by
  induction updates with
  | nil => simp at h
  | cons u us ih =>
      by_cases hu : u.update_type = none
      · exact ⟨UpdateError.valueError "update_type cannot be None",
          by simp [build_write_request, build_relationship_update, hu]⟩
      · rcases Option.ne_none_iff_exists'.1 hu with ⟨t, ht⟩
        have htail : ∃ v ∈ us, v.update_type = none := by
          rcases h with ⟨v, hv, hvn⟩
          rcases List.mem_cons.1 hv with rfl | hv'
          · exact absurd hvn hu
          · exact ⟨v, hv', hvn⟩
        cases t with
        | create =>
            exact ⟨UpdateError.notImplementedError "Relation update type not defined.",
              by simp [build_write_request, build_relationship_update, ht,
                relation_update_type, Except.map]⟩
        | grant =>
            rcases ih htail with ⟨e, he⟩
            exact ⟨e, by simp [build_write_request, build_relationship_update, ht,
              relation_update_type, he, Except.map]⟩
        | revoke =>
            rcases ih htail with ⟨e, he⟩
            exact ⟨e, by simp [build_write_request, build_relationship_update, ht,
              relation_update_type, he, Except.map]⟩

/-- C4 helper: when a null-typed element is preceded only by elements that
are not create-typed (they may themselves be null), the build fails with
exactly the `ValueError` — the loop hits a null element before it can hit
a create one. -/
theorem build_write_request_valueError (pre : List RelationUpdateRequest)
    (u : RelationUpdateRequest) (post : List RelationUpdateRequest)
    (hpre : ∀ v ∈ pre, v.update_type ≠ some RelationUpdateType.create)
    (hu : u.update_type = none) :
    build_write_request (pre ++ u :: post) =
      Except.error (UpdateError.valueError "update_type cannot be None") := by
  induction pre with
  | nil => simp [build_write_request, build_relationship_update, hu]
  | cons v vs ih =>
      have hv : v.update_type ≠ some RelationUpdateType.create :=
        hpre v (List.mem_cons_self v vs)
      have ihh := ih fun w hw => hpre w (List.mem_cons_of_mem _ hw)
      cases hvt : v.update_type with
      | none => simp [build_write_request, build_relationship_update, hvt]
      | some t =>
          cases t with
          | create => exact absurd hvt hv
          | grant =>
              simp [build_write_request, build_relationship_update, hvt,
                relation_update_type, ihh, Except.map]
          | revoke =>
              simp [build_write_request, build_relationship_update, hvt,
                relation_update_type, ihh, Except.map]

/-- C4 helper: when a create-typed element is preceded only by grant- or
revoke-typed elements (no null, no create), the build fails with exactly
the `NotImplementedError` from `_relation_update_type`. -/
theorem build_write_request_notImplemented (pre : List RelationUpdateRequest)
    (u : RelationUpdateRequest) (post : List RelationUpdateRequest)
    (hpre : ∀ v ∈ pre, v.update_type ≠ none ∧ v.update_type ≠ some RelationUpdateType.create)
    (hu : u.update_type = some RelationUpdateType.create) :
    build_write_request (pre ++ u :: post) =
      Except.error (UpdateError.notImplementedError "Relation update type not defined.") := by
  induction pre with
  | nil =>
      simp [build_write_request, build_relationship_update, hu,
        relation_update_type, Except.map]
  | cons v vs ih =>
      obtain ⟨hv1, hv2⟩ := hpre v (List.mem_cons_self v vs)
      have ihh := ih fun w hw => hpre w (List.mem_cons_of_mem _ hw)
      cases hvt : v.update_type with
      | none => exact absurd hvt hv1
      | some t =>
          cases t with
          | create => exact absurd hvt hv2
          | grant =>
              simp [build_write_request, build_relationship_update, hvt,
                relation_update_type, ihh, Except.map]
          | revoke =>
              simp [build_write_request, build_relationship_update, hvt,
                relation_update_type, ihh, Except.map]

/-- C4 counterexample: a list whose first element has the unsupported
`create` update type and whose second has a null `update_type` makes
`update` raise `NotImplementedError`, not the claimed `ValueError` (still
before any remote write). -/
theorem update_null_update_type_counterexample :
    ((update
        [{ subject_type := "user", subject_id := Ident.str "1", resource_type := "document"
           resource_id := Ident.str "7", relation := "owner"
           update_type := some RelationUpdateType.create },
         { subject_type := "user", subject_id := Ident.str "2", resource_type := "document"
           resource_id := Ident.str "7", relation := "owner", update_type := none }]
        (fun _ => { written_at_token := some "token" })).result =
      Except.error (UpdateError.notImplementedError "Relation update type not defined.")) ∧
    ((update
        [{ subject_type := "user", subject_id := Ident.str "1", resource_type := "document"
           resource_id := Ident.str "7", relation := "owner"
           update_type := some RelationUpdateType.create },
         { subject_type := "user", subject_id := Ident.str "2", resource_type := "document"
           resource_id := Ident.str "7", relation := "owner", update_type := none }]
        (fun _ => { written_at_token := some "token" })).result ≠
      Except.error (UpdateError.valueError "update_type cannot be None")) := by
  constructor <;> decide

/-- C4 amended: a list containing a null `update_type` always makes
`update` raise before any remote write call is issued (so no mutation
reaches the remote service). The raised error is the `ValueError` whenever
some null-typed element has no create-typed element before it; when a
create-typed element occurs with no null- or create-typed element before
it, `NotImplementedError` is raised first instead. -/
theorem update_null_update_type_rejected (updates : List RelationUpdateRequest)
    (respond : WriteRelationshipsRequest → WriteRelationshipsResponse)
    (h : ∃ u ∈ updates, u.update_type = none) :
    (update updates respond).remote_write = none ∧
    (∃ e, (update updates respond).result = Except.error e) ∧
    (∀ pre u post, updates = pre ++ u :: post → u.update_type = none →
      (∀ v ∈ pre, v.update_type ≠ some RelationUpdateType.create) →
      (update updates respond).result =
        Except.error (UpdateError.valueError "update_type cannot be None")) ∧
    (∀ pre u post, updates = pre ++ u :: post →
      u.update_type = some RelationUpdateType.create →
      (∀ v ∈ pre, v.update_type ≠ none ∧ v.update_type ≠ some RelationUpdateType.create) →
      (update updates respond).result =
        Except.error (UpdateError.notImplementedError "Relation update type not defined.")) := by
  rcases build_write_request_error_of_none updates h with ⟨e, he⟩
  refine ⟨?_, ?_, ?_, ?_⟩
  · unfold update
    rw [he]
  · refine ⟨e, ?_⟩
    unfold update
    rw [he]
  · intro pre u post heq hu hpre
    subst heq
    unfold update
    rw [build_write_request_valueError pre u post hpre hu]
  · intro pre u post heq hu hpre
    subst heq
    unfold update
    rw [build_write_request_notImplemented pre u post hpre hu]

/-- C4 witness: a single update with a null `update_type` is rejected with
the `ValueError` and no write request is sent. -/
theorem update_null_update_type_rejected_witness :
    (update
        [{ subject_type := "user", subject_id := Ident.str "2", resource_type := "document"
           resource_id := Ident.str "7", relation := "owner", update_type := none }]
        (fun _ => { written_at_token := some "token" })).remote_write = none ∧
    (update
        [{ subject_type := "user", subject_id := Ident.str "2", resource_type := "document"
           resource_id := Ident.str "7", relation := "owner", update_type := none }]
        (fun _ => { written_at_token := some "token" })).result =
      Except.error (UpdateError.valueError "update_type cannot be None") := by
  have h := update_null_update_type_rejected
    [{ subject_type := "user", subject_id := Ident.str "2", resource_type := "document"
       resource_id := Ident.str "7", relation := "owner", update_type := none }]
    (fun _ => { written_at_token := some "token" })
    ⟨_, List.mem_cons_self _ _, rfl⟩
  exact ⟨h.1, h.2.2.1 []
    { subject_type := "user", subject_id := Ident.str "2", resource_type := "document"
      resource_id := Ident.str "7", relation := "owner", update_type := none }
    [] rfl rfl (by simp)⟩

/-- C1: for every non-empty `check_many` input, every input request appears
as a key of the result mapping exactly once, and a key maps to allow iff
the bulk response contains a pair for exactly that tuple reporting
permission — otherwise it maps to forbid (also when the response omits the
tuple entirely). -/
theorem check_many_total_coverage (requests : List CheckRequest)
    (full_consistent minimize_latency : Bool) (response : BulkCheckPermissionResponse)
    (hne : requests ≠ []) :
    (∀ r ∈ requests,
      (dictKeys (check_many requests full_consistent minimize_latency response).result).count r
        = 1) ∧
    (∀ k ∈ dictKeys (check_many requests full_consistent minimize_latency response).result,
      (dictGet (check_many requests full_consistent minimize_latency response).result k =
          some Access.allow ↔
        ∃ p ∈ response.pairs,
          p.item.permissionship = Permissionship.hasPermission ∧ pairCheckRequest p = k) ∧
      ((¬ ∃ p ∈ response.pairs,
          p.item.permissionship = Permissionship.hasPermission ∧ pairCheckRequest p = k) →
        dictGet (check_many requests full_consistent minimize_latency response).result k =
          some Access.forbid)) := by
  have hres : (check_many requests full_consistent minimize_latency response).result =
      applyPairs (initForbid requests) response.pairs := by
    simp [check_many, hne]
  have hnodup : (dictKeys (applyPairs (initForbid requests) response.pairs)).Nodup :=
    nodup_dictKeys_applyPairs _ _ (nodup_dictKeys_initForbid requests)
  have hany : ∀ k : CheckRequest, response.pairs.any (pair_allows k) = true ↔
      ∃ p ∈ response.pairs,
        p.item.permissionship = Permissionship.hasPermission ∧ pairCheckRequest p = k := by
    intro k
    rw [List.any_eq_true]
    constructor
    · rintro ⟨p, hp, hpa⟩
      simp only [pair_allows, Bool.and_eq_true, beq_iff_eq] at hpa
      exact ⟨p, hp, hpa⟩
    · rintro ⟨p, hp, h1, h2⟩
      exact ⟨p, hp, by simp [pair_allows, h1, h2]⟩
  rw [hres]
  constructor
  · intro r hr
    exact List.count_eq_one_of_mem hnodup
      (mem_dictKeys_applyPairs _ _ _ ((mem_dictKeys_initForbid requests r).2 hr))
  · intro k hk
    rw [dictGet_applyPairs]
    by_cases hx : response.pairs.any (pair_allows k) = true
    · constructor
      · rw [if_pos hx]
        exact ⟨fun _ => (hany k).1 hx, fun _ => rfl⟩
      · intro hno
        exact absurd ((hany k).1 hx) hno
    · have hmem : k ∈ requests := by
        have hsome : (dictGet (applyPairs (initForbid requests) response.pairs) k).isSome
            = true := (dictGet_isSome_iff _ _).2 hk
        rw [dictGet_applyPairs, if_neg hx, dictGet_initForbid] at hsome
        by_cases hkr : k ∈ requests
        · exact hkr
        · rw [if_neg hkr] at hsome
          simp at hsome
      rw [if_neg hx, dictGet_initForbid, if_pos hmem]
      constructor
      · constructor
        · intro hcontr
          simp at hcontr
        · intro hex
          exact absurd ((hany k).2 hex) hx
      · intro _
        rfl

/-- C1 witness: two requests, a bulk response reporting permission for the
second one only: both requests are keys once; the second maps to allow, the
first to forbid. -/
theorem check_many_total_coverage_witness :
    ([CheckRequest.make "user" (Ident.str "1") "document" (Ident.str "1") "view",
      CheckRequest.make "user" (Ident.str "1") "document" (Ident.str "2") "view"] ≠
        ([] : List CheckRequest)) ∧
    (∀ r ∈ [CheckRequest.make "user" (Ident.str "1") "document" (Ident.str "1") "view",
            CheckRequest.make "user" (Ident.str "1") "document" (Ident.str "2") "view"],
      (dictKeys (check_many
          [CheckRequest.make "user" (Ident.str "1") "document" (Ident.str "1") "view",
           CheckRequest.make "user" (Ident.str "1") "document" (Ident.str "2") "view"]
          false false
          { pairs := [{ request := check_many_item
                          (CheckRequest.make "user" (Ident.str "1") "document"
                            (Ident.str "2") "view")
                        item := { permissionship := Permissionship.hasPermission } }] }).result).count
        r = 1) := by
  refine ⟨by decide, ?_⟩
  exact (check_many_total_coverage
    [CheckRequest.make "user" (Ident.str "1") "document" (Ident.str "1") "view",
     CheckRequest.make "user" (Ident.str "1") "document" (Ident.str "2") "view"]
    false false
    { pairs := [{ request := check_many_item
                    (CheckRequest.make "user" (Ident.str "1") "document" (Ident.str "2") "view")
                  item := { permissionship := Permissionship.hasPermission } }] }
    (by decide)).1

/-- C3: with the fan-out abstracted into a per-request task outcome,
`resources_many` returns a mapping whose keys are exactly the N requests;
an unfinished (timed-out) or failed sub-lookup contributes an empty list
for its key, every finished one its own result — and the merge is a total
function, so no single sub-outcome makes the batch raise. -/
theorem resources_many_degraded_coverage (requests : List ResourcesRequest)
    (outcome : ResourcesRequest → TaskOutcome) (hnd : requests.Nodup) :
    dictKeys (resources_many requests outcome) = requests ∧
    (∀ r ∈ requests,
      dictGet (resources_many requests outcome) r = some (taskResult (outcome r))) ∧
    taskResult TaskOutcome.pending = [] ∧
    (∀ e, taskResult (TaskOutcome.failed e) = []) ∧
    (∀ l, taskResult (TaskOutcome.done l) = l) := by
  have htasks : requests.foldl (fun d r => dictSet d r (outcome r)) [] =
      requests.map (fun r => (r, outcome r)) :=
    foldl_set_eq_append outcome requests [] hnd (by simp [dictKeys])
  have hmain : resources_many requests outcome =
      requests.foldl (fun d r => dictSet d r (taskResult (outcome r))) [] := by
    unfold resources_many
    rw [htasks, List.foldl_map]
  constructor
  · rw [hmain,
      foldl_set_eq_append (fun r => taskResult (outcome r)) requests [] hnd
        (by simp [dictKeys])]
    simp only [List.nil_append, dictKeys, List.map_map]
    exact List.map_id requests
  refine ⟨?_, rfl, fun _ => rfl, fun _ => rfl⟩
  intro r hr
  rw [hmain, dictGet_foldl_set (fun r => taskResult (outcome r)) requests []]
  simp [hr]

/-- C3 witness: three distinct requests whose sub-lookups respectively
finish, stall, and raise: the mapping keeps all three keys, maps the
stalled and failed ones to the empty list and the finished one to its
result. -/
theorem resources_many_degraded_coverage_witness :
    ([({ subject_type := "user", subject_id := Ident.str "1", resource_type := "battle"
         permission := "view" } : ResourcesRequest),
      { subject_type := "user", subject_id := Ident.str "1", resource_type := "battle"
        permission := "edit" },
      { subject_type := "user", subject_id := Ident.str "1", resource_type := "battle"
        permission := "delete" }] : List ResourcesRequest).Nodup ∧
    dictKeys (resources_many
        [{ subject_type := "user", subject_id := Ident.str "1", resource_type := "battle"
           permission := "view" },
         { subject_type := "user", subject_id := Ident.str "1", resource_type := "battle"
           permission := "edit" },
         { subject_type := "user", subject_id := Ident.str "1", resource_type := "battle"
           permission := "delete" }]
        (fun r =>
          if r.permission = "view" then TaskOutcome.done ["7"]
          else if r.permission = "edit" then TaskOutcome.pending
          else TaskOutcome.failed "boom")) =
      [{ subject_type := "user", subject_id := Ident.str "1", resource_type := "battle"
         permission := "view" },
       { subject_type := "user", subject_id := Ident.str "1", resource_type := "battle"
         permission := "edit" },
       { subject_type := "user", subject_id := Ident.str "1", resource_type := "battle"
         permission := "delete" }] := by
  refine ⟨by decide, ?_⟩
  exact (resources_many_degraded_coverage
    [{ subject_type := "user", subject_id := Ident.str "1", resource_type := "battle"
       permission := "view" },
     { subject_type := "user", subject_id := Ident.str "1", resource_type := "battle"
       permission := "edit" },
     { subject_type := "user", subject_id := Ident.str "1", resource_type := "battle"
       permission := "delete" }]
    (fun r =>
      if r.permission = "view" then TaskOutcome.done ["7"]
      else if r.permission = "edit" then TaskOutcome.pending
      else TaskOutcome.failed "boom")
    (by decide)).1

/-- C6 helper: flattening the per-child parses equals filtering and
projecting the flattened per-child leaf-subject enumerations. -/
theorem flatten_parse_eq (subject_type : String) (children : List PermissionTree)
    (ih : ∀ c ∈ children, parse_subjects subject_type c =
      ((all_leaf_subjects c).filter fun s => s.object.object_type == subject_type).map
        fun s => s.object.object_id) :
    (children.map (parse_subjects subject_type)).flatten =
      ((children.map all_leaf_subjects).flatten.filter
        fun s => s.object.object_type == subject_type).map fun s => s.object.object_id := by
  induction children with
  | nil => simp
  | cons c cs ihl =>
      simp only [List.map_cons, List.flatten_cons, List.filter_append, List.map_append]
      rw [ih c (List.mem_cons_self c cs), ihl fun c hc => ih c (List.mem_cons_of_mem _ hc)]

/-- C6: `parse_subjects` yields exactly the subject ids found at leaf nodes
whose subject type equals the filter — leaves of other subject types are
excluded — in the depth-first, left-to-right traversal order of the tree
(the order `all_leaf_subjects` enumerates). -/
theorem parse_subjects_dfs_filter (subject_type : String) :
    (t : PermissionTree) → parse_subjects subject_type t =
      ((all_leaf_subjects t).filter fun s => s.object.object_type == subject_type).map
        fun s => s.object.object_id
  | PermissionTree.node leafSubjects children => by
      have ih : ∀ c ∈ children, parse_subjects subject_type c =
          ((all_leaf_subjects c).filter fun s => s.object.object_type == subject_type).map
            fun s => s.object.object_id :=
        fun c hc => parse_subjects_dfs_filter subject_type c
      rw [parse_subjects, all_leaf_subjects]
      rw [List.attach_map_val children (parse_subjects subject_type),
        List.attach_map_val children all_leaf_subjects]
      rw [List.filter_append, List.map_append]
      rw [flatten_parse_eq subject_type children ih]
decreasing_by
  have h := List.sizeOf_lt_of_mem hc
  simp_wf
  omega

end Authzed
